import Mathlib

/-!
Verification development for the pygmdata client (`pygmdata/pygmdata.py`),
covering the path/oid reconciliation subsystem: the hierarchy cache
(`Data.hierarchy`, `populate_hierarchy`, `find_file`), recursive directory
creation (`make_directory_tree`), metadata construction (`create_meta`),
upload bookkeeping (`upload_file`) and the sequential part naming scheme
(`get_part`, `_increment_char`, `_increment_str`).

The remote GM-Data store is an external collaborator; it is modelled as a
flat list of nodes (`FlatNode`), with `GET /list/{oid}/` answered by
filtering on `parentoid`, `GET /props/{oid}` answered by looking the node
up, and `POST /write` appending a fresh node and returning a fresh oid.
JSON object policies are opaque to the client; they are modelled by the
wrapper type `OP`, with `json.loads`/`json.dumps` as the bijections
`jsonLoads`/`jsonDumps`.

Python recursion is modelled with an explicit fuel argument standing for
the interpreter stack: a result of `none` means the call did not return
normally (unbounded recursion / RecursionError, or a raised transport
error such as fetching `/props/None`).
-/

/-- An object policy as a structured JSON value; opaque to the client.
`val` is its serialized form. -/
structure OP where
  val : String
deriving DecidableEq

/-- Model of `json.loads` applied to a serialized object policy. -/
def jsonLoads (s : String) : OP := ⟨s⟩

/-- Model of `json.dumps` applied to a structured object policy. -/
def jsonDumps (o : OP) : String := o.val

/-- A key of the `self.hierarchy` dict. Python dict keys are compared with
`==` and `hash`: a `str` key and a `pathlib.Path` key are distinct even
when they render to the same path string. `populate_hierarchy` and
`upload_file` insert `str` keys; `make_directory_tree` (line 316) inserts
the `Path` object it built on line 263. -/
inductive Key where
  | str (s : String)
  | path (s : String)
deriving DecidableEq

/-- One node of the remote GM-Data tree (external collaborator state).
`isfile` models the optional `isfile` JSON key: `none` means the key is
absent (a directory), `some b` means the key is present with value `b`. -/
structure FlatNode where
  oid : Nat
  parentoid : Nat
  name : String
  isfile : Option Bool
  objectpolicy : OP
  security : String
  mimetype : Option String
deriving DecidableEq

/-- The client's hierarchy cache `self.hierarchy`. -/
def Hier : Type := Key → Option Nat

/-- Dict assignment `self.hierarchy[k] = v` (insert-or-overwrite). -/
def insertH (h : Hier) (k : Key) (v : Nat) : Hier :=
  fun k' => if k' = k then some v else h k'

/-- A metadata record as built by `create_meta` / `make_directory_tree`
and posted to `/write`. Optional fields model JSON keys that may be
absent; `mimetype := some m` means the record carries mimetype `m`
(`none`: the key is absent or its value is null). -/
structure MetaRec where
  action : String
  name : Option String
  parentoid : Option Nat
  isFile : Option Bool
  objectpolicy : Option OP
  mimetype : Option String
  security : Option String
deriving DecidableEq

/-- Combined state of one `Data` client and the remote store: the cache,
the remote node list, the store's fresh-oid counter, and the log of
metadata records posted to `/write` (in order). -/
structure St where
  hier : Hier
  remote : List FlatNode
  nextOid : Nat
  writes : List MetaRec

/-- `GET /props/{oid}`: the remote node with the given oid, if any. -/
def props (remote : List FlatNode) (oid : Nat) : Option FlatNode :=
  remote.find? (fun n => n.oid = oid)

/-- Split a character list at every '/' (the groups between slashes,
empty groups included). -/
def splitOnSlash : List Char → List (List Char)
  | [] => [[]]
  | c :: rest =>
    let r := splitOnSlash rest
    if c = '/' then [] :: r
    else
      match r with
      | [] => [[c]]
      | g :: gs => (c :: g) :: gs

/-- The nonempty components of an absolute normalized path ("/" has
none, "/a/b" has ["a", "b"]), as `pathlib.PurePosixPath.parts` yields
them (without the leading "/"). -/
def pathParts (p : String) : List (List Char) :=
  (splitOnSlash p.data).filter (fun g => g ≠ [])

/-- Join components with '/' separators. -/
def joinSlash : List (List Char) → List Char
  | [] => []
  | [c] => c
  | c :: cs => c ++ '/' :: joinSlash cs

/-- Parent path, as `str(Path(p).parent)` computes it for an absolute
normalized path: drop the last component; the parent of "/" is "/". -/
def pathParent (p : String) : String :=
  match (pathParts p).dropLast with
  | [] => "/"
  | cs => ⟨'/' :: joinSlash cs⟩

/-- Last path component, as `Path(p).name` computes it (empty for "/"). -/
def pathName (p : String) : String :=
  ⟨(pathParts p).getLastD []⟩

/-- The recursive walk of `populate_hierarchy` (lines 71-104), traversing
the pending sibling list of the current directory. For each listed entry
it inserts `path ++ "/" ++ name ↦ oid` under a string key and recurses
into entries whose JSON has no `isfile` key. Fuel models the Python call
stack (it also bounds the sibling loop, which is harmless: any fuel at
least `1 + nodes + depth` is enough); `none` is a RecursionError. -/
def populate_walk : Nat → List FlatNode → String → List FlatNode → Hier → Option Hier
  | 0, _, _, _, _ => none
  | _ + 1, _, _, [], h => some h
  | fuel + 1, remote, path, j :: rest, h =>
    let filepath := path ++ "/" ++ j.name
    let h1 := insertH h (Key.str filepath) j.oid
    match j.isfile with
    | some _ => populate_walk fuel remote path rest h1
    | none =>
      match populate_walk fuel remote (if filepath = "/" then "" else filepath)
          (remote.filter (fun n => n.parentoid = j.oid)) h1 with
      | none => none
      | some h2 => populate_walk fuel remote path rest h2

/-- `populate_hierarchy(path, oid)` (lines 71-104): list the children of
`oid` and walk them, after replacing a root path "/" by "". -/
def populate_hierarchy (fuel : Nat) (remote : List FlatNode) (path : String)
    (oid : Nat) (h : Hier) : Option Hier :=
  populate_walk fuel remote (if path = "/" then "" else path)
    (remote.filter (fun n => n.parentoid = oid)) h

/-- `find_file` (lines 531-552): return the cached oid if the string key
is present; otherwise repopulate the whole hierarchy from the root oid 1
and retry once, returning `none` (the inner option) if still absent. The
final `Nat` counts the repopulation calls issued (0 or 1). The outer
`none` is a propagated repopulation failure. -/
def find_file (fuel : Nat) (st : St) (filename : String) :
    Option (Option Nat × St × Nat) :=
  match st.hier (Key.str filename) with
  | some oid => some (some oid, st, 0)
  | none =>
    match populate_hierarchy fuel st.remote "/" 1 st.hier with
    | none => none
    | some h2 => some (h2 (Key.str filename), { st with hier := h2 }, 1)

/-- `make_directory_tree(path, object_policy, security)` (lines 251-318).
Looks up the parent; if absent, recursively creates it first, passing the
same `object_policy` and `security` kwargs down (lines 270-272); looks the
parent up again, fetches its props, falls back to the parent's policy when
the supplied one is `None` or empty (line 275-276, Python falsiness),
posts an action-"U" directory record, appends the created node to the
remote store, and records the response oid in the cache under the
`pathlib.Path` object built on line 263 (a `Key.path` key, line 316).
Returns the new oid and the final state; `none` models a non-returning
call (RecursionError from the unbounded parent ascent, or a raised
transport error such as `GET /props/None` when the parent is still
unresolved after the recursive call). -/
def make_directory_tree : Nat → St → String → Option String → Option String →
    Option (Nat × St)
  | 0, _, _, _, _ => none
  | fuel + 1, st, path, object_policy, security =>
    match find_file fuel st (pathParent path) with
    | none => none
    | some (oid0, st1, _) =>
      let recStep : Option St :=
        match oid0 with
        | none =>
          match make_directory_tree fuel st1 (pathParent path) object_policy security with
          | none => none
          | some (_, st2) => some st2
        | some _ => some st1
      match recStep with
      | none => none
      | some st2 =>
        match find_file fuel st2 (pathParent path) with
        | none => none
        | some (oid1, st3, _) =>
          match oid1 with
          | none => none
          | some oid =>
            match props st3.remote oid with
            | none => none
            | some pr =>
              let op : String :=
                match object_policy with
                | none => jsonDumps pr.objectpolicy
                | some s => if s = "" then jsonDumps pr.objectpolicy else s
              let sec : Option String :=
                match security with
                | some s => if s = "" then none else some s
                | none => some pr.security
              let body : MetaRec :=
                { action := "U", name := some (pathName path),
                  parentoid := some oid, isFile := some false,
                  objectpolicy := some (jsonLoads op), mimetype := none,
                  security := sec }
              let newOid := st3.nextOid
              let node : FlatNode :=
                { oid := newOid, parentoid := oid, name := pathName path,
                  isfile := none, objectpolicy := jsonLoads op,
                  security := sec.getD "", mimetype := none }
              let st4 : St :=
                { hier := insertH st3.hier (Key.path path) newOid,
                  remote := st3.remote ++ [node],
                  nextOid := newOid + 1,
                  writes := st3.writes ++ [body] }
              some (newOid, st4)

/-- Bool test that `s` ends with `suffix`. -/
def ends_with (s suffix : String) : Bool :=
  suffix.data.isSuffixOf s.data

/-- Model of the stdlib collaborator `mimetypes.guess_type`: the type is
looked up from the filename's extension (a small table of the types used
in this development); the second component (encoding) is always absent. -/
def guess_type (filename : String) : Option String × Option String :=
  (if ends_with filename ".txt" then some "text/plain"
   else if ends_with filename ".log" then some "text/plain"
   else if ends_with filename ".json" then some "application/json"
   else if ends_with filename ".jpg" then some "image/jpeg"
   else none, none)

/-- `create_meta(data_filename, object_policy, **kwargs)` (lines 106-192).
Resolves the target; computes the mimetype guess from the explicit kwarg,
else the local filename hint, else the target path (lines 131-136). If
the target resolves, returns the target's props with `action` set to "C"
(line 143) and the supplied policy/security overlaid when truthy; if not,
resolves (or creates) the parent directory, inherits the parent's policy
and security when none are supplied, and builds a fresh action-"C" file
record. `none` models a raised exception (failed props fetch or a
non-returning `make_directory_tree`). -/
def create_meta (fuel : Nat) (st : St) (data_filename : String)
    (object_policy : Option String) (security : Option String)
    (mimetypeArg : Option (Option String × Option String))
    (local_filename : Option String) : Option (MetaRec × St) :=
  match find_file fuel st data_filename with
  | none => none
  | some (oidFound, st1, _) =>
    let mimetype : Option String × Option String :=
      match mimetypeArg with
      | some m => m
      | none =>
        match local_filename with
        | some lf => guess_type lf
        | none => guess_type data_filename
    match oidFound with
    | some oid =>
      match props st1.remote oid with
      | none => none
      | some pr =>
        let meta0 : MetaRec :=
          { action := "C", name := some pr.name,
            parentoid := some pr.parentoid, isFile := pr.isfile,
            objectpolicy := some pr.objectpolicy,
            mimetype := pr.mimetype, security := some pr.security }
        let meta1 : MetaRec :=
          match object_policy with
          | some s => if s = "" then meta0 else { meta0 with objectpolicy := some (jsonLoads s) }
          | none => meta0
        let meta2 : MetaRec :=
          match security with
          | some s => if s = "" then meta1 else { meta1 with security := some s }
          | none => meta1
        some (meta2, st1)
    | none =>
      match find_file fuel st1 (pathParent data_filename) with
      | none => none
      | some (poidFound, st2, _) =>
        let step : Option (Nat × St) :=
          match poidFound with
          | none => make_directory_tree fuel st2 (pathParent data_filename) object_policy none
          | some poid => some (poid, st2)
        match step with
        | none => none
        | some (poid, st3) =>
          let opRes : Option OP :=
            match object_policy with
            | none => (props st3.remote poid).map (fun pr => pr.objectpolicy)
            | some s =>
              if s = "" then (props st3.remote poid).map (fun pr => pr.objectpolicy)
              else some (jsonLoads s)
          match opRes with
          | none => none
          | some op =>
            let secRes : Option (Option String) :=
              match security with
              | some s => if s = "" then some none else some (some s)
              | none => (props st3.remote poid).map (fun pr => some pr.security)
            match secRes with
            | none => none
            | some sec =>
              some ({ action := "C", name := some (pathName data_filename),
                      parentoid := some poid, isFile := some true,
                      objectpolicy := some op, mimetype := mimetype.1,
                      security := sec }, st3)

/-- `upload_file(local_filename, data_filename, object_policy, **kwargs)`
(lines 194-249), success path: build the metadata via `create_meta` (with
the local filename as mimetype hint), post the multipart write, append
the created file node to the remote store, and on success record the
response oid in the cache under the string key `data_filename`
(line 247). -/
def upload_file (fuel : Nat) (st : St) (local_filename data_filename : String)
    (object_policy : Option String) (security : Option String) :
    Option (Bool × St) :=
  match create_meta fuel st data_filename object_policy security none
      (some local_filename) with
  | none => none
  | some (meta, st1) =>
    let newOid := st1.nextOid
    let node : FlatNode :=
      { oid := newOid, parentoid := meta.parentoid.getD 0,
        name := meta.name.getD "", isfile := some true,
        objectpolicy := meta.objectpolicy.getD (jsonLoads ""),
        security := (meta.security.getD ""), mimetype := meta.mimetype }
    let st2 : St :=
      { hier := insertH st1.hier (Key.str data_filename) newOid,
        remote := st1.remote ++ [node],
        nextOid := newOid + 1,
        writes := st1.writes ++ [meta] }
    some (true, st2)

/-- `_increment_char(c)` (lines 597-602): next letter, rolling 'z' to 'a'. -/
def increment_char (c : Char) : Char :=
  if c ≠ 'z' then Char.ofNat (c.toNat + 1) else 'a'

/-- Python `s.rstrip('z')`: remove every trailing 'z'. -/
def rstrip_z (s : List Char) : List Char :=
  (s.reverse.dropWhile (fun c => c = 'z')).reverse

/-- `_increment_str(s)` (lines 604-609), on the character list of `s`:
strip the trailing run of 'z', increment the last remaining character
(or use "a" when everything was stripped), then pad with one 'a' per
stripped character. -/
def increment_str (s : List Char) : List Char :=
  let lpart := rstrip_z s
  let numReplacements := s.length - lpart.length
  let new_s :=
    match lpart with
    | [] => ['a']
    | _ :: _ => lpart.dropLast ++ [increment_char (lpart.getLastD 'a')]
  new_s ++ List.replicate numReplacements 'a'

/-- `_increment_str` as a `String → String` function. -/
def increment_string (s : String) : String :=
  ⟨increment_str s.data⟩

/-- Python string `<` (lexicographic on code points), Bool-valued. -/
def chars_lt : List Char → List Char → Bool
  | [], [] => false
  | [], _ :: _ => true
  | _ :: _, [] => false
  | a :: as, b :: bs => if a < b then true else if b < a then false else chars_lt as bs

/-- Python string `<` on `String`. -/
def str_lt (a b : String) : Bool := chars_lt a.data b.data

/-- Insert a string into an ascending list, after every smaller element
(the insertion step of an ascending stable sort). -/
def ordered_insert (a : String) : List String → List String
  | [] => [a]
  | b :: l => if str_lt b a then b :: ordered_insert a l else a :: b :: l

/-- Python `list.sort()` for strings: ascending lexicographic sort. -/
def sort_names : List String → List String
  | [] => []
  | a :: l => ordered_insert a (sort_names l)

/-- Python `name.split(".")[0]`: the prefix before the first '.'. -/
def split_dot (s : String) : String :=
  ⟨s.data.takeWhile (fun c => c ≠ '.')⟩

/-- Lines 353-374 of `get_part`: list the children of `oid`, keep the
entries carrying an `isfile` key, take their names, sort them, and return
"aaa" when empty, else `_increment_str` of the last (greatest) name with
everything from its first '.' stripped. The listing is read-only. -/
def next_part_listing (st : St) (oid : Nat) : String :=
  let names := ((st.remote.filter (fun n => n.parentoid = oid)).filter
      (fun n => n.isfile.isSome)).map (fun n => n.name)
  let sorted := sort_names names
  if sorted.length = 0 then "aaa"
  else increment_string (split_dot (sorted.getLastD ""))

/-- `get_part(data_filename, object_policy)` (lines 320-374). If the
string key is not in the cache, resolve via `find_file`; when that fails
too, create a directory named for the file and return "aaa"; when it
succeeds, fall through to the listing step with the resolved oid (no
props check on this path). If the string key is cached, fetch the node's
props and substitute the parent oid when the props carry a truthy
`isfile`; then compute the next part from the listing. -/
def get_part (fuel : Nat) (st : St) (data_filename : String)
    (object_policy : Option String) : Option (String × St) :=
  match st.hier (Key.str data_filename) with
  | none =>
    match find_file fuel st data_filename with
    | none => none
    | some (oidFound, st1, _) =>
      match oidFound with
      | none =>
        match make_directory_tree fuel st1 data_filename object_policy none with
        | none => none
        | some (_, st2) => some ("aaa", st2)
      | some oid => some (next_part_listing st1 oid, st1)
  | some oid =>
    match props st.remote oid with
    | none => none
    | some pr =>
      let oid2 : Nat :=
        match pr.isfile with
        | some true => pr.parentoid
        | _ => oid
      some (next_part_listing st oid2, st)

/-- The empty client state over an empty remote tree: nothing cached,
no remote nodes, no writes issued. -/
def emptySt : St :=
  { hier := fun _ => none, remote := [], nextOid := 2, writes := [] }

/-- Lowercase letter number `i` (0 ↦ 'a', 25 ↦ 'z'). -/
def lchr (i : Fin 26) : Char := Char.ofNat (97 + i.val)

/-- The procedure described by claim C7's sentence: keep the file
children's names, strip each name's extension first, then sort the
stripped base names and return the `_increment_str` successor of the
maximum ("aaa" when there are none). This follows the spec's words, to
be compared with `next_part_listing`, which follows the source. -/
def spec_next_part (names : List String) : String :=
  let bases := names.map split_dot
  let sorted := sort_names bases
  if sorted.length = 0 then "aaa"
  else increment_string (sorted.getLastD "")

/-- Scenario: the remote tree holds one directory `/a` (oid 2, policy
"PA", security "SA") under the root (oid 1, policy "PR"); the cache
knows `/a`. Used to run `make_directory_tree "/a/b/c"`. -/
def stC4 : St :=
  { hier := fun k => if k = Key.str "/a" then some 2 else none,
    remote := [
      { oid := 1, parentoid := 0, name := "", isfile := none,
        objectpolicy := ⟨"PR"⟩, security := "SR", mimetype := none },
      { oid := 2, parentoid := 1, name := "a", isfile := none,
        objectpolicy := ⟨"PA"⟩, security := "SA", mimetype := none }],
    nextOid := 3, writes := [] }

/-- The run of `make_directory_tree "/a/b/c"` with a supplied leaf
policy "PL" on `stC4` (with its `Option` unwrapped; the run succeeds). -/
def runC4 : Nat × St :=
  (make_directory_tree 10 stC4 "/a/b/c" (some "PL") none).getD (0, stC4)

/-- Scenario: the cache and remote hold the existing file `/f.txt`
(oid 2) with complete properties, including a stored mimetype. -/
def stUpd : St :=
  { hier := fun k => if k = Key.str "/f.txt" then some 2 else none,
    remote := [
      { oid := 1, parentoid := 0, name := "", isfile := none,
        objectpolicy := ⟨"PR"⟩, security := "SR", mimetype := none },
      { oid := 2, parentoid := 1, name := "f.txt", isfile := some true,
        objectpolicy := ⟨"P0"⟩, security := "S0", mimetype := some "text/plain" }],
    nextOid := 3, writes := [] }

/-- Scenario: the existing file `/f` (oid 2) whose stored properties
carry no mimetype (the `/props` response is not required to have one). -/
def stC9 : St :=
  { hier := fun k => if k = Key.str "/f" then some 2 else none,
    remote := [
      { oid := 1, parentoid := 0, name := "", isfile := none,
        objectpolicy := ⟨"PR"⟩, security := "SR", mimetype := none },
      { oid := 2, parentoid := 1, name := "f", isfile := some true,
        objectpolicy := ⟨"P0"⟩, security := "S0", mimetype := none }],
    nextOid := 3, writes := [] }

/-- Scenario: directory `/d` (oid 2, cached) containing the two file
children "a-b" and "a.c". -/
def stC7 : St :=
  { hier := fun k => if k = Key.str "/d" then some 2 else none,
    remote := [
      { oid := 1, parentoid := 0, name := "", isfile := none,
        objectpolicy := ⟨"PR"⟩, security := "SR", mimetype := none },
      { oid := 2, parentoid := 1, name := "d", isfile := none,
        objectpolicy := ⟨"PD"⟩, security := "SD", mimetype := none },
      { oid := 3, parentoid := 2, name := "a-b", isfile := some true,
        objectpolicy := ⟨"PD"⟩, security := "SD", mimetype := none },
      { oid := 4, parentoid := 2, name := "a.c", isfile := some true,
        objectpolicy := ⟨"PD"⟩, security := "SD", mimetype := none }],
    nextOid := 5, writes := [] }

/-- Scenario: directory `/d` (oid 2, cached) containing the parts
"aaa" and "aab". -/
def stC7parts : St :=
  { hier := fun k => if k = Key.str "/d" then some 2 else none,
    remote := [
      { oid := 1, parentoid := 0, name := "", isfile := none,
        objectpolicy := ⟨"PR"⟩, security := "SR", mimetype := none },
      { oid := 2, parentoid := 1, name := "d", isfile := none,
        objectpolicy := ⟨"PD"⟩, security := "SD", mimetype := none },
      { oid := 3, parentoid := 2, name := "aaa", isfile := some true,
        objectpolicy := ⟨"PD"⟩, security := "SD", mimetype := none },
      { oid := 4, parentoid := 2, name := "aab", isfile := some true,
        objectpolicy := ⟨"PD"⟩, security := "SD", mimetype := none }],
    nextOid := 5, writes := [] }

/-- Scenario: directory `/d` (oid 2, cached) with no children. -/
def stC7empty : St :=
  { hier := fun k => if k = Key.str "/d" then some 2 else none,
    remote := [
      { oid := 1, parentoid := 0, name := "", isfile := none,
        objectpolicy := ⟨"PR"⟩, security := "SR", mimetype := none },
      { oid := 2, parentoid := 1, name := "d", isfile := none,
        objectpolicy := ⟨"PD"⟩, security := "SD", mimetype := none }],
    nextOid := 3, writes := [] }

/-- Scenario: the remote tree holds directory `/d` (oid 2) containing
the file `/d/f` (oid 3), but the local cache is empty (stale), so the
path resolves only after a repopulation. -/
def stC8 : St :=
  { hier := fun _ => none,
    remote := [
      { oid := 1, parentoid := 0, name := "", isfile := none,
        objectpolicy := ⟨"PR"⟩, security := "SR", mimetype := none },
      { oid := 2, parentoid := 1, name := "d", isfile := none,
        objectpolicy := ⟨"PD"⟩, security := "SD", mimetype := none },
      { oid := 3, parentoid := 2, name := "f", isfile := some true,
        objectpolicy := ⟨"PD"⟩, security := "SD", mimetype := none }],
    nextOid := 4, writes := [] }

/-- The run of `upload_file` updating the existing `/f.txt` on `stUpd`
(with its `Option` unwrapped; the run succeeds). -/
def runUpload : Bool × St :=
  (upload_file 5 stUpd "/tmp/local.txt" "/f.txt" none none).getD (false, stUpd)

/-- `Char.ofNat` of a scalar below the surrogate range keeps its code. -/
theorem char_toNat_ofNat (n : Nat) (h : n < 55296) : (Char.ofNat n).toNat = n := by
  have hv : n.isValidChar := Or.inl h
  unfold Char.ofNat
  rw [dif_pos hv]
  rfl

/-- Character order is the order of code points (one direction). -/
theorem char_lt_of_toNat_lt {a b : Char} (h : a.toNat < b.toNat) : a < b := h

/-- Character order is the order of code points (other direction). -/
theorem char_toNat_lt_of_lt {a b : Char} (h : a < b) : a.toNat < b.toNat := h

/-- Characters with different code points differ. -/
theorem char_ne_of_toNat_ne {a b : Char} (h : a.toNat ≠ b.toNat) : a ≠ b := by
  intro he
  exact h (he ▸ rfl)

/-- Code point of the `i`-th lowercase letter. -/
theorem lchr_toNat (i : Fin 26) : (lchr i).toNat = 97 + i.val :=
  char_toNat_ofNat _ (by omega)

/-- Every lowercase letter other than the last is below 'z'. -/
theorem lchr_lt_z (i : Fin 26) (h : i ≠ 25) : lchr i < 'z' := by
  apply char_lt_of_toNat_lt
  rw [lchr_toNat]
  have hv : i.val ≠ 25 := fun hv => h (Fin.ext hv)
  have := i.isLt
  show 97 + i.val < 122
  omega

/-- A character below 'z' is not 'z'. -/
theorem ne_z_of_lt_z {c : Char} (h : c < 'z') : c ≠ 'z' :=
  fun he => absurd (he ▸ h) (lt_irrefl _)

/-- `_increment_char` bumps the code point of a character below 'z'. -/
theorem increment_char_toNat {c : Char} (h : c < 'z') :
    (increment_char c).toNat = c.toNat + 1 := by
  have hne : c ≠ 'z' := ne_z_of_lt_z h
  have hlt : c.toNat < 122 := char_toNat_lt_of_lt h
  unfold increment_char
  rw [if_pos hne]
  exact char_toNat_ofNat _ (by omega)

/-- `_increment_char` strictly increases a character below 'z'. -/
theorem increment_char_gt {c : Char} (h : c < 'z') : c < increment_char c := by
  apply char_lt_of_toNat_lt
  rw [increment_char_toNat h]
  omega

/-- `_increment_char` moves every character below 'z'. -/
theorem increment_char_ne {c : Char} (h : c < 'z') : increment_char c ≠ c := by
  apply char_ne_of_toNat_ne
  rw [increment_char_toNat h]
  omega

/-- `_increment_str` on a 3-character string whose last character is not
'z': only the last character is bumped. -/
theorem increment_str_last (a b c : Char) (h : c ≠ 'z') :
    increment_str [a, b, c] = [a, b, increment_char c] := by
  simp [increment_str, rstrip_z, List.dropWhile, h]

/-- `_increment_str` with exactly the last character equal to 'z':
the middle character is bumped and the 'z' rolls to 'a'. -/
theorem increment_str_mid (a b : Char) (h : b ≠ 'z') :
    increment_str [a, b, 'z'] = [a, increment_char b, 'a'] := by
  simp [increment_str, rstrip_z, List.dropWhile, h]

/-- `_increment_str` with the last two characters equal to 'z': the
first character is bumped and both 'z's roll to 'a'. -/
theorem increment_str_first (a : Char) (h : a ≠ 'z') :
    increment_str [a, 'z', 'z'] = [increment_char a, 'a', 'a'] := by
  simp [increment_str, rstrip_z, List.dropWhile, h]

/-- The last lowercase letter is 'z'. -/
theorem lchr_25 : lchr 25 = 'z' := by decide

/-- C5: for every 3-character string `s` of lowercase letters a-z other
than "zzz", `_increment_str s` differs from `s` and is lexicographically
greater; in particular `_increment_str` maps "aaa" to "aab", "aaz" to
"aba", and "azz" to "baa". -/
theorem c5_increment_strictly_increasing :
    (∀ i j k : Fin 26, ¬(i = 25 ∧ j = 25 ∧ k = 25) →
      increment_str [lchr i, lchr j, lchr k] ≠ [lchr i, lchr j, lchr k] ∧
      List.Lex (· < ·) [lchr i, lchr j, lchr k] (increment_str [lchr i, lchr j, lchr k])) ∧
    increment_str "aaa".data = "aab".data ∧
    increment_str "aaz".data = "aba".data ∧
    increment_str "azz".data = "baa".data := by
  refine ⟨?_, by decide, by decide, by decide⟩
  intro i j k hne
  by_cases hk : k = 25
  · by_cases hj : j = 25
    · by_cases hi : i = 25
      · exact absurd ⟨hi, hj, hk⟩ hne
      · have hlt := lchr_lt_z i hi
        subst hk hj
        rw [lchr_25, increment_str_first _ (ne_z_of_lt_z hlt)]
        constructor
        · intro he
          injection he with h1 h2
          exact increment_char_ne hlt h1
        · exact List.Lex.rel (increment_char_gt hlt)
    · have hlt := lchr_lt_z j hj
      subst hk
      rw [lchr_25, increment_str_mid _ _ (ne_z_of_lt_z hlt)]
      constructor
      · intro he
        injection he with h1 h2
        injection h2 with h3 h4
        exact increment_char_ne hlt h3
      · exact List.Lex.cons (List.Lex.rel (increment_char_gt hlt))
  · have hlt := lchr_lt_z k hk
    rw [increment_str_last _ _ _ (ne_z_of_lt_z hlt)]
    constructor
    · intro he
      injection he with h1 h2
      injection h2 with h3 h4
      injection h4 with h5 h6
      exact increment_char_ne hlt h5
    · exact List.Lex.cons (List.Lex.cons (List.Lex.rel (increment_char_gt hlt)))

/-- Witness for C5 at the concrete input "abc" (i = 0, j = 1, k = 2). -/
theorem c5_witness :
    increment_str [lchr 0, lchr 1, lchr 2] ≠ [lchr 0, lchr 1, lchr 2] ∧
    List.Lex (· < ·) [lchr 0, lchr 1, lchr 2] (increment_str [lchr 0, lchr 1, lchr 2]) :=
  c5_increment_strictly_increasing.1 0 1 2 (by decide)

/-- C3 counterexample: `_increment_str` applied to "zzz" raises nothing
and returns the string "aaaa" (the claim says the call signals a
sequence-exhausted error rather than returning any string; the function
is total and returns this wider string instead). -/
theorem c3_increment_zzz_returns_aaaa :
    increment_str "zzz".data = "aaaa".data := by decide

/-- C3 amended: `_increment_str "zzz"` signals no error; it silently
returns "aaaa", a string one character wider than the fixed 3-character
part width, escaping the fixed-width name space. -/
theorem c3_amended_zzz_overflows_width :
    increment_str "zzz".data = "aaaa".data ∧
    ("zzz".data).length = 3 ∧
    (increment_str "zzz".data).length = 4 := by
  refine ⟨by decide, by decide, by decide⟩

/-- Repopulating from an empty remote tree changes nothing (with any
positive stack budget): `GET /list/1/` answers the empty list. -/
theorem populate_empty_remote (fuel : Nat) (p : String) (h : Hier) :
    populate_hierarchy (fuel + 1) [] p 1 h = some h := rfl

/-- `find_file` on the empty state misses, repopulates without effect,
and reports the path as absent (with any positive stack budget). -/
theorem find_file_emptySt (fuel : Nat) (p : String) :
    find_file (fuel + 1) emptySt p = some (none, emptySt, 1) := rfl

/-- One step of `make_directory_tree`: when the parent lookup misses
without changing the state and the recursive parent creation does not
return, the whole call does not return. -/
theorem mdtree_succ_miss (fuel : Nat) (st : St) (p : String)
    (op sec : Option String)
    (hmiss : find_file fuel st (pathParent p) = some (none, st, 1))
    (hrec : make_directory_tree fuel st (pathParent p) op sec = none) :
    make_directory_tree (fuel + 1) st p op sec = none := by
  simp only [make_directory_tree, hmiss, hrec]

/-- On the empty state `make_directory_tree` never returns, whatever the
stack budget: `find_file` never resolves any path (in particular not the
root "/", which is never a key of the hierarchy dict), so the parent
ascent recurses forever on "/" and no write is ever issued. -/
theorem mdtree_emptySt_never_returns :
    ∀ fuel p object_policy security,
      make_directory_tree fuel emptySt p object_policy security = none := by
  intro fuel
  induction fuel with
  | zero => intro p op sec; rfl
  | succ n ih =>
    intro p op sec
    cases n with
    | zero => rfl
    | succ m =>
      exact mdtree_succ_miss (m + 1) emptySt p op sec (find_file_emptySt m _)
        (ih (pathParent p) op sec)

/-- C1: `make_directory_tree "/a/b/c"` on an empty remote tree with an
empty cache does not terminate, for every stack budget (a Python
RecursionError): the root path never resolves to the root oid 1, so the
recursive parent ascent never reaches a base case, no directory node is
ever created, and the claimed three ordered creations never happen. -/
theorem c1_make_directory_tree_diverges_on_empty_tree :
    ∀ fuel object_policy security,
      make_directory_tree fuel emptySt "/a/b/c" object_policy security = none :=
  fun fuel op sec => mdtree_emptySt_never_returns fuel "/a/b/c" op sec

/-- C6: `find_file` returns a cached oid without any network call, and on
a cache miss performs exactly one full repopulation from the remote root
(oid 1), retries the lookup once, and reports the repopulated cache's
answer — `none` (NotFound) when the path is still absent. The third
component of the result counts the repopulation calls issued. -/
theorem c6_find_file_cache_semantics :
    (∀ fuel st p oid, st.hier (Key.str p) = some oid →
      find_file fuel st p = some (some oid, st, 0)) ∧
    (∀ fuel st p h2, st.hier (Key.str p) = none →
      populate_hierarchy fuel st.remote "/" 1 st.hier = some h2 →
      find_file fuel st p = some (h2 (Key.str p), { st with hier := h2 }, 1)) := by
  constructor
  · intro fuel st p oid hh
    unfold find_file
    rw [hh]
  · intro fuel st p h2 hh hp
    unfold find_file
    rw [hh, hp]

/-- Witness for C6: a cache hit on `/f.txt` answers from the cache with
zero repopulations; a miss on `/q` over the empty remote repopulates
exactly once and reports NotFound. -/
theorem c6_witness :
    find_file 5 stUpd "/f.txt" = some (some 2, stUpd, 0) ∧
    find_file 5 emptySt "/q" = some (none, emptySt, 1) :=
  ⟨c6_find_file_cache_semantics.1 5 stUpd "/f.txt" 2 rfl,
   c6_find_file_cache_semantics.2 5 emptySt "/q" emptySt.hier rfl rfl⟩

/-- C2 counterexample: `/f.txt` exists (it resolves to oid 2), yet the
metadata record `create_meta` returns for it carries action "C", not the
claimed "U" — line 143 sets `meta['action'] = "C"` in the update branch. -/
theorem c2_update_action_is_C_not_U :
    (create_meta 5 stUpd "/f.txt" none none none none).map (fun r => r.1.action) =
      some "C" ∧ "C" ≠ "U" :=
  ⟨rfl, by decide⟩

/-- C2 amended: for every target path, whether or not it resolves to an
existing file, the metadata record `create_meta` returns is serialized
with action "C"; the update branch still fetches and overlays the
existing properties, but its action field is "C" as well, never "U". -/
theorem c2_amended_action_always_C :
    ∀ fuel st f op sec mt lf m st',
      create_meta fuel st f op sec mt lf = some (m, st') → m.action = "C" := by
  intro fuel st f op sec mt lf m st' h
  simp only [create_meta] at h
  repeat' split at h
  all_goals (cases h <;> rfl)

/-- Witness for C2 amended at the concrete update-branch input `stUpd`. -/
theorem c2_amended_witness :
    ((create_meta 5 stUpd "/f.txt" none none none none).getD
      (({ action := "", name := none, parentoid := none, isFile := none,
          objectpolicy := none, mimetype := none, security := none } : MetaRec),
        stUpd)).1.action = "C" :=
  c2_amended_action_always_C 5 stUpd "/f.txt" none none none none _ _ rfl

/-- C9 counterexample: the existing file `/f` resolves (update branch),
and `create_meta` succeeds, but the returned record's mimetype is the
one stored in the `/props` response — absent here — so the record
carries no mimetype value, against the claim; its objectpolicy is
present. The computed mimetype guess (lines 131-136) is never written
into the update branch's record. -/
theorem c9_update_record_may_lack_mimetype :
    (create_meta 5 stC9 "/f" none none none none).map
      (fun r => (r.1.mimetype, r.1.objectpolicy, r.1.action)) =
      some (none, some ⟨"P0"⟩, "C") :=
  rfl

/-- C9 amended: every record `create_meta` returns carries an
objectPolicy value (the create branch supplies or inherits one, the
update branch keeps the stored one); a mimetype value is not guaranteed:
the update branch carries one exactly when the stored properties do, and
only the create branch always writes the (possibly null) guess. -/
theorem c9_amended_objectpolicy_always_present :
    ∀ fuel st f op sec mt lf m st',
      create_meta fuel st f op sec mt lf = some (m, st') →
      (m.objectpolicy).isSome = true := by
  intro fuel st f op sec mt lf m st' h
  simp only [create_meta] at h
  repeat' split at h
  all_goals (cases h <;> rfl)

/-- Witness for C9 amended at the concrete input `stC9`. -/
theorem c9_amended_witness :
    (((create_meta 5 stC9 "/f" none none none none).getD
      (({ action := "", name := none, parentoid := none, isFile := none,
          objectpolicy := none, mimetype := none, security := none } : MetaRec),
        stC9)).1.objectpolicy).isSome = true :=
  c9_amended_objectpolicy_always_present 5 stC9 "/f" none none none none _ _ rfl

/-- `find_file` only ever touches the cache: the writes log, the remote
tree and the oid counter are returned unchanged. -/
theorem find_file_preserves {fuel : Nat} {st : St} {p : String}
    {o : Option Nat} {st' : St} {c : Nat}
    (h : find_file fuel st p = some (o, st', c)) :
    st'.writes = st.writes ∧ st'.remote = st.remote ∧ st'.nextOid = st.nextOid := by
  unfold find_file at h
  split at h
  · cases h
    exact ⟨rfl, rfl, rfl⟩
  · split at h
    · cases h
    · cases h
      exact ⟨rfl, rfl, rfl⟩

/-- C4 counterexample: with `/a` existing (policy "PA") and `/a/b`
missing, `make_directory_tree "/a/b/c"` with the supplied leaf policy
"PL" creates the missing ancestor `/a/b` with the caller's policy "PL"
(first write), not with the policy "PA" it would inherit from its own
parent `/a`: lines 270-272 pass `object_policy` down the recursion. -/
theorem c4_ancestor_gets_leaf_policy :
    (make_directory_tree 10 stC4 "/a/b/c" (some "PL") none).map
      (fun r => r.2.writes.map (fun m => (m.name, m.objectpolicy))) =
      some [(some "b", some ⟨"PL"⟩), (some "c", some ⟨"PL"⟩)] ∧
    (props stC4.remote 2).map (fun n => n.objectpolicy) = some ⟨"PA"⟩ ∧
    (⟨"PL"⟩ : OP) ≠ ⟨"PA"⟩ :=
  ⟨rfl, rfl, by decide⟩

/-- C4 amended: when a non-empty object policy is supplied to
`make_directory_tree`, every directory write the call issues — for the
requested path and for every missing ancestor it creates on the way —
carries exactly the supplied policy (every record in the final write log
either predates the call or carries it); inheritance from an ancestor's
own parent happens only when no policy is supplied. -/
theorem c4_amended_supplied_policy_everywhere :
    ∀ fuel st p polS sec oid st',
      polS ≠ "" →
      make_directory_tree fuel st p (some polS) sec = some (oid, st') →
      ∀ m ∈ st'.writes, m ∈ st.writes ∨ m.objectpolicy = some (jsonLoads polS) := by
  intro fuel
  induction fuel with
  | zero =>
    intro st p polS sec oid st' hne h
    cases h
  | succ n ih =>
    intro st p polS sec oid st' hne h
    simp only [make_directory_tree] at h
    split at h
    · cases h
    rename_i o1 st1 c1 heq1
    split at h
    · cases h
    rename_i st2 heq2
    split at h
    · cases h
    rename_i oid1 st3 c3 heq4
    split at h
    · cases h
    rename_i oidv
    split at h
    · cases h
    rename_i pr heq5
    have hw1 := (find_file_preserves heq1).1
    have hw4 := (find_file_preserves heq4).1
    cases h
    intro m hm
    rcases List.mem_append.mp hm with hm1 | hm2
    · rw [hw4] at hm1
      split at heq2
      · split at heq2
        · cases heq2
        rename_i fst2 st2v heq3
        cases heq2
        rcases ih st1 (pathParent p) polS sec fst2 st2 hne heq3 m hm1 with hmem | hpol
        · rw [hw1] at hmem
          exact Or.inl hmem
        · exact Or.inr hpol
      · cases heq2
        rw [hw1] at hm1
        exact Or.inl hm1
    · right
      rw [List.mem_singleton.mp hm2]
      show some (jsonLoads (if polS = "" then jsonDumps pr.objectpolicy else polS)) =
        some (jsonLoads polS)
      rw [if_neg hne]

/-- Witness for C4 amended: in the concrete run `runC4` of
`make_directory_tree "/a/b/c"` with policy "PL" on `stC4`, the write
that created the missing ancestor `/a/b` is in the final log, and since
`stC4` had issued no writes, the theorem forces it to carry policy
"PL". -/
theorem c4_amended_witness :
    ({ action := "U", name := some "b", parentoid := some 2,
       isFile := some false, objectpolicy := some ⟨"PL"⟩,
       mimetype := none, security := some "SA" } : MetaRec) ∈ stC4.writes ∨
    ({ action := "U", name := some "b", parentoid := some 2,
       isFile := some false, objectpolicy := some ⟨"PL"⟩,
       mimetype := none, security := some "SA" } : MetaRec).objectpolicy =
      some (jsonLoads "PL") :=
  c4_amended_supplied_policy_everywhere 10 stC4 "/a/b/c" "PL" none
    runC4.1 runC4.2 (by decide) rfl _ (by decide)

/-- C7 counterexample: the cached directory `/d` has the file children
"a-b" and "a.c". `get_part` sorts the FULL names first ("a-b" < "a.c"
since '-' precedes '.'), takes the last ("a.c"), strips from the first
'.' and increments: "b". The claimed procedure — strip extensions first,
then sort and increment the maximum — yields "a-c" on the same children.
The two procedures disagree, so the claim's description of the code is
wrong (lines 363-372 sort before stripping). -/
theorem c7_sort_before_strip_divergence :
    ((stC7.remote.filter (fun n => n.parentoid = 2)).filter
        (fun n => n.isfile.isSome)).map (fun n => n.name) = ["a-b", "a.c"] ∧
    (get_part 6 stC7 "/d" none).map (fun r => r.1) = some "b" ∧
    spec_next_part ["a-b", "a.c"] = "a-c" ∧
    ("b" : String) ≠ "a-c" :=
  ⟨rfl, rfl, rfl, by decide⟩

/-- C7 amended: on a logical path cached as a node whose props do not
carry a truthy `isfile`, `get_part` keeps the file-typed children,
sorts their full names ascending, takes the last (greatest), strips
everything from its first '.', and returns its `_increment_str`
successor — "aaa" when there are no file children; in particular with
parts ["aaa","aab"] it returns "aac" and with no children "aaa". -/
theorem c7_amended_directory_next_part :
    (∀ fuel st p pol oid pr, st.hier (Key.str p) = some oid →
      props st.remote oid = some pr → pr.isfile ≠ some true →
      get_part fuel st p pol = some (next_part_listing st oid, st)) ∧
    (get_part 6 stC7parts "/d" none).map (fun r => r.1) = some "aac" ∧
    (get_part 6 stC7empty "/d" none).map (fun r => r.1) = some "aaa" := by
  refine ⟨?_, rfl, rfl⟩
  intro fuel st p pol oid pr hh hp hnf
  rcases hif : pr.isfile with _ | b
  · simp only [get_part, hh, hp, hif]
  · cases b with
    | true => exact absurd hif hnf
    | false => simp only [get_part, hh, hp, hif]

/-- Witness for C7 amended: the directory with parts ["aaa","aab"]. -/
theorem c7_amended_witness :
    get_part 6 stC7parts "/d" none = some ("aac", stC7parts) :=
  c7_amended_directory_next_part.1 6 stC7parts "/d" none 2 _ rfl rfl (by decide)

/-- C8 counterexample: the stale-cache path `/d/f` resolves (after the
one repopulation `find_file` performs) to the file node oid 3 whose
parent container is oid 2 — yet `get_part` lists the children of the
file's own oid 3 (none, hence "aaa") instead of the parent container's
(which would give "g"): the isfile/parent substitution of lines 343-352
runs only on the direct cache-hit branch, not after a repopulation. -/
theorem c8_repopulated_file_uses_own_oid :
    (find_file 6 stC8 "/d/f").map (fun r => r.1) = some (some 3) ∧
    (props stC8.remote 3).map (fun n => (n.isfile, n.parentoid)) =
      some (some true, 2) ∧
    (get_part 6 stC8 "/d/f" none).map (fun r => r.1) = some "aaa" ∧
    next_part_listing stC8 2 = "g" ∧
    ("aaa" : String) ≠ "g" :=
  ⟨rfl, rfl, rfl, rfl, by decide⟩

/-- C8 amended: `get_part` substitutes the file's parent as the parts
container only when the logical path is found in the cache directly (it
then fetches props and, on a truthy `isfile`, lists the parent's
children); when the path resolves only through `find_file`'s
repopulation, the resolved oid itself is used as the container even if
it names a file. -/
theorem c8_amended_parent_only_on_cache_hit :
    (∀ fuel st p pol oid pr, st.hier (Key.str p) = some oid →
      props st.remote oid = some pr → pr.isfile = some true →
      get_part fuel st p pol = some (next_part_listing st pr.parentoid, st)) ∧
    (∀ fuel st p pol h2 oid, st.hier (Key.str p) = none →
      populate_hierarchy fuel st.remote "/" 1 st.hier = some h2 →
      h2 (Key.str p) = some oid →
      get_part fuel st p pol =
        some (next_part_listing { st with hier := h2 } oid, { st with hier := h2 })) := by
  constructor
  · intro fuel st p pol oid pr hh hp hf
    simp only [get_part, hh, hp, hf]
  · intro fuel st p pol h2 oid hh hpop hfound
    simp only [get_part, find_file, hh, hpop, hfound]

/-- Witness for C8 amended: the cache-hit file `/f.txt` (container =
parent oid 1, next part "g") and the repopulated file `/d/f` (container
= its own oid 3, next part "aaa"). -/
theorem c8_amended_witness :
    get_part 5 stUpd "/f.txt" none = some ("g", stUpd) ∧
    get_part 6 stC8 "/d/f" none =
      some ("aaa", { stC8 with
        hier := insertH (insertH stC8.hier (Key.str "/d") 2) (Key.str "/d/f") 3 }) :=
  ⟨c8_amended_parent_only_on_cache_hit.1 5 stUpd "/f.txt" none 2 _ rfl rfl rfl,
   c8_amended_parent_only_on_cache_hit.2 6 stC8 "/d/f" none
     (insertH (insertH stC8.hier (Key.str "/d") 2) (Key.str "/d/f") 3) 3 rfl rfl rfl⟩

/-- C10 counterexample: one `make_directory_tree "/a/b/c"` call leaves
the cache with TWO live entries for the path string "/a/b": the string
key inserted by the repopulation inside `find_file`, and the distinct
`pathlib.Path`-typed key inserted by line 316 — a second entry for the
same path under a differently-typed key, which the claim rules out. -/
theorem c10_path_typed_duplicate_key :
    (make_directory_tree 10 stC4 "/a/b/c" (some "PL") none).map (fun r =>
      (r.2.hier (Key.str "/a/b"), r.2.hier (Key.path "/a/b"))) =
      some (some 3, some 3) ∧
    Key.str "/a/b" ≠ Key.path "/a/b" :=
  ⟨rfl, by decide⟩

/-- C10 amended: each single cache key is last-write-wins (inserting
overwrites that key and touches no other), `upload_file` records its
result under the string key of the path, but `make_directory_tree`
records its result under a `pathlib.Path`-typed key — distinct from the
string key for the same path string — so one directory creation can
leave two differently-typed entries for one path. -/
theorem c10_amended_key_behavior :
    (∀ h k v, insertH h k v k = some v) ∧
    (∀ h k v k', k' ≠ k → insertH h k v k' = h k') ∧
    (∀ fuel st p op sec oid st',
      make_directory_tree fuel st p op sec = some (oid, st') →
      st'.hier (Key.path p) = some oid) ∧
    (∀ fuel st lf df op sec b st',
      upload_file fuel st lf df op sec = some (b, st') →
      st'.hier (Key.str df) = some (st'.nextOid - 1)) := by
  refine ⟨?_, ?_, ?_, ?_⟩
  · intro h k v
    simp [insertH]
  · intro h k v k' hne
    simp [insertH, hne]
  · intro fuel st p op sec oid st' h
    cases fuel with
    | zero => cases h
    | succ n =>
      simp only [make_directory_tree] at h
      repeat' split at h
      all_goals cases h
      all_goals simp [insertH]
  · intro fuel st lf df op sec b st' h
    simp only [upload_file] at h
    repeat' split at h
    all_goals cases h
    all_goals simp [insertH]

/-- Witness for C10 amended at concrete keys and runs: overwriting "/x"
as a string key does not create a Path-typed entry; the `runC4`
directory creation records the Path-typed key of "/a/b/c"; the
`runUpload` upload records the string key of "/f.txt". -/
theorem c10_amended_witness :
    insertH emptySt.hier (Key.str "/x") 7 (Key.str "/x") = some 7 ∧
    insertH emptySt.hier (Key.str "/x") 7 (Key.path "/x") = none ∧
    runC4.2.hier (Key.path "/a/b/c") = some runC4.1 ∧
    runUpload.2.hier (Key.str "/f.txt") = some (runUpload.2.nextOid - 1) :=
  ⟨c10_amended_key_behavior.1 emptySt.hier (Key.str "/x") 7,
   c10_amended_key_behavior.2.1 emptySt.hier (Key.str "/x") 7 (Key.path "/x") (by decide),
   c10_amended_key_behavior.2.2.1 10 stC4 "/a/b/c" (some "PL") none runC4.1 runC4.2 rfl,
   c10_amended_key_behavior.2.2.2 5 stUpd "/tmp/local.txt" "/f.txt" none none
     runUpload.1 runUpload.2 rfl⟩
